import Mathlib

/-!
Shallow embedding of the gokeys terminal input library (package `input`):
the escape-sequence parser (`input/parser.go`), the Go `unicode/utf8`
helpers it calls, the Unix backend's `ReadEvent` accumulator logic
(`input/backend_unix_darwin.go`), and the facade / capture-loop state
machine (`input/impl.go`).  Bytes and runes are modelled as `Nat`;
Go's `b & (2^k - 1)` is written `b % 2^k`.  The `Timestamp` field of
`Event` (wall-clock time) is omitted: no claim mentions it.
-/

namespace Gokeys

/-- Key is `type Key int` from event.go; the numerals follow the iota
order of the constant block there. -/
abbrev Key := Nat

def KeyUnknown : Key := 0
def KeyEscape : Key := 1
def KeyEnter : Key := 2
def KeyBackspace : Key := 3
def KeyTab : Key := 4
def KeyDelete : Key := 5
def KeyInsert : Key := 6
def KeyUp : Key := 7
def KeyDown : Key := 8
def KeyLeft : Key := 9
def KeyRight : Key := 10
def KeyHome : Key := 11
def KeyEnd : Key := 12
def KeyPageUp : Key := 13
def KeyPageDown : Key := 14
def KeyF1 : Key := 15
def KeyF2 : Key := 16
def KeyF3 : Key := 17
def KeyF4 : Key := 18
def KeyF5 : Key := 19
def KeyF6 : Key := 20
def KeyF7 : Key := 21
def KeyF8 : Key := 22
def KeyF9 : Key := 23
def KeyF10 : Key := 24
def KeyF11 : Key := 25
def KeyF12 : Key := 26
def KeyA : Key := 27
def KeyB : Key := 28
def KeyC : Key := 29
def KeyD : Key := 30
def KeyE : Key := 31
def KeyF : Key := 32
def KeyG : Key := 33
def KeyH : Key := 34
def KeyI : Key := 35
def KeyJ : Key := 36
def KeyK : Key := 37
def KeyL : Key := 38
def KeyM : Key := 39
def KeyN : Key := 40
def KeyO : Key := 41
def KeyP : Key := 42
def KeyQ : Key := 43
def KeyR : Key := 44
def KeyS : Key := 45
def KeyT : Key := 46
def KeyU : Key := 47
def KeyV : Key := 48
def KeyW : Key := 49
def KeyX : Key := 50
def KeyY : Key := 51
def KeyZ : Key := 52
def Key0 : Key := 53
def Key1 : Key := 54
def Key2 : Key := 55
def Key3 : Key := 56
def Key4 : Key := 57
def Key5 : Key := 58
def Key6 : Key := 59
def Key7 : Key := 60
def Key8 : Key := 61
def Key9 : Key := 62
def KeyCtrlA : Key := 63
def KeyCtrlB : Key := 64
def KeyCtrlC : Key := 65
def KeyCtrlD : Key := 66
def KeyCtrlE : Key := 67
def KeyCtrlF : Key := 68
def KeyCtrlG : Key := 69
def KeyCtrlH : Key := 70
def KeyCtrlI : Key := 71
def KeyCtrlJ : Key := 72
def KeyCtrlK : Key := 73
def KeyCtrlL : Key := 74
def KeyCtrlM : Key := 75
def KeyCtrlN : Key := 76
def KeyCtrlO : Key := 77
def KeyCtrlP : Key := 78
def KeyCtrlQ : Key := 79
def KeyCtrlR : Key := 80
def KeyCtrlS : Key := 81
def KeyCtrlT : Key := 82
def KeyCtrlU : Key := 83
def KeyCtrlV : Key := 84
def KeyCtrlW : Key := 85
def KeyCtrlX : Key := 86
def KeyCtrlY : Key := 87
def KeyCtrlZ : Key := 88
def KeySpace : Key := 89

/-- Modifier is `type Modifier int`; in the Go const block `ModShift = 1 << iota`
sits at spec index 1, so ModShift = 2, ModAlt = 4, ModCtrl = 8. -/
abbrev Modifier := Nat

def ModNone : Modifier := 0
def ModShift : Modifier := 2
def ModAlt : Modifier := 4
def ModCtrl : Modifier := 8

/-- Event mirrors `input.Event` minus the wall-clock Timestamp field.
Rune is the Unicode code point as a Nat (Go rune values seen here are
non-negative). -/
structure Event where
  Key : Key
  Rune : Nat
  Modifiers : Modifier
  Pressed : Bool
  Repeat : Bool
deriving DecidableEq, Repr

/-- Zero value of the Go Event struct (Timestamp omitted). -/
def zeroEvent : Event := ⟨KeyUnknown, 0, ModNone, false, false⟩

deriving instance DecidableEq for Except

/-- Errors Parse can produce, by their message strings in parser.go. -/
inductive ParseErr where
  | emptySequence
  | incompleteUtf8
deriving DecidableEq, Repr

/-- Model of the Go `unicode/utf8` `first` lookup table: the per-lead-byte
information byte (low 3 bits = sequence size, high 4 bits = accept-range
index; `as` = 0xF0 marks ASCII, `xx` = 0xF1 marks an invalid lead byte). -/
def utf8first (b : Nat) : Nat :=
  if b ≤ 0x7F then 0xF0
  else if b ≤ 0xC1 then 0xF1
  else if b ≤ 0xDF then 0x02
  else if b = 0xE0 then 0x13
  else if b ≤ 0xEC then 0x03
  else if b = 0xED then 0x23
  else if b ≤ 0xEF then 0x03
  else if b = 0xF0 then 0x34
  else if b ≤ 0xF3 then 0x04
  else if b = 0xF4 then 0x44
  else 0xF1

/-- Model of Go `utf8.acceptRanges`: lo and hi bound for the second byte,
indexed by the high nibble of the `first` table entry. -/
def acceptRange (i : Nat) : Nat × Nat :=
  match i with
  | 0 => (0x80, 0xBF)
  | 1 => (0xA0, 0xBF)
  | 2 => (0x80, 0x9F)
  | 3 => (0x90, 0xBF)
  | 4 => (0x80, 0x8F)
  | _ => (0, 0)

/-- Model of Go `utf8.FullRune`: reports whether the buffer begins with a
full UTF-8 encoding of a rune (an invalid encoding counts as full). -/
def utf8FullRune (p : List Nat) : Bool :=
  match p with
  | [] => false
  | p0 :: rest =>
    let x := utf8first p0
    if x % 8 ≤ p.length then true
    else
      let acc := acceptRange (x / 16)
      match rest with
      | [] => false
      | b1 :: rest2 =>
        if b1 < acc.1 ∨ acc.2 < b1 then true
        else
          match rest2 with
          | [] => false
          | b2 :: _ => if b2 < 0x80 ∨ 0xBF < b2 then true else false

/-- Model of Go `utf8.DecodeRune`: returns (rune, size); RuneError = 0xFFFD.
Masking `b & 0x3F` etc. is written `b % 64` etc. -/
def utf8DecodeRune (p : List Nat) : Nat × Nat :=
  match p with
  | [] => (0xFFFD, 0)
  | p0 :: rest =>
    let x := utf8first p0
    if 0xF0 ≤ x then
      -- ASCII (as) or invalid lead byte (xx)
      if x = 0xF0 then (p0, 1) else (0xFFFD, 1)
    else
      let sz := x % 8
      let acc := acceptRange (x / 16)
      if p.length < sz then (0xFFFD, 1)
      else
        match rest with
        | [] => (0xFFFD, 1)
        | b1 :: rest2 =>
          if b1 < acc.1 ∨ acc.2 < b1 then (0xFFFD, 1)
          else if sz ≤ 2 then ((p0 % 32) * 64 + b1 % 64, 2)
          else
            match rest2 with
            | [] => (0xFFFD, 1)
            | b2 :: rest3 =>
              if b2 < 0x80 ∨ 0xBF < b2 then (0xFFFD, 1)
              else if sz ≤ 3 then
                ((p0 % 16) * 4096 + (b1 % 64) * 64 + b2 % 64, 3)
              else
                match rest3 with
                | [] => (0xFFFD, 1)
                | b3 :: _ =>
                  if b3 < 0x80 ∨ 0xBF < b3 then (0xFFFD, 1)
                  else ((p0 % 8) * 262144 + (b1 % 64) * 4096
                          + (b2 % 64) * 64 + b3 % 64, 4)

/-- Trie node from parser.go (`SequenceNode`); the Go `map[byte]*SequenceNode`
becomes an association list keyed by byte. -/
inductive SequenceNode where
  | mk (key : Key) (modifier : Modifier) (children : List (Nat × SequenceNode))

def SequenceNode.key : SequenceNode → Key
  | .mk k _ _ => k

def SequenceNode.modifier : SequenceNode → Modifier
  | .mk _ m _ => m

def SequenceNode.children : SequenceNode → List (Nat × SequenceNode)
  | .mk _ _ c => c

/-- Association-list lookup standing in for Go map indexing. -/
def assocFind (l : List (Nat × SequenceNode)) (b : Nat) : Option SequenceNode :=
  match l with
  | [] => none
  | (k, v) :: rest => if k = b then some v else assocFind rest b

/-- Association-list update standing in for Go map assignment. -/
def assocSet (l : List (Nat × SequenceNode)) (b : Nat) (v : SequenceNode) :
    List (Nat × SequenceNode) :=
  match l with
  | [] => [(b, v)]
  | (k, w) :: rest => if k = b then (b, v) :: rest else (k, w) :: assocSet rest b v

/-- Model of `SequenceParser.addSequence`: walk/extend the trie along seq and
set key and modifier at the final node. -/
def addSequence (node : SequenceNode) (seq : List Nat) (key : Key)
    (mod : Modifier) : SequenceNode :=
  match seq with
  | [] => .mk key mod node.children
  | b :: rest =>
    let child := match assocFind node.children b with
      | some c => c
      | none => .mk KeyUnknown ModNone []
    .mk node.key node.modifier (assocSet node.children b (addSequence child rest key mod))

/-- The sequences inserted by `SequenceParser.buildTrie`, in source order. -/
def escapeSequences : List (List Nat × Key × Modifier) :=
  [ ([0x1b, 0x5b, 0x41], KeyUp, ModNone)
  , ([0x1b, 0x5b, 0x42], KeyDown, ModNone)
  , ([0x1b, 0x5b, 0x43], KeyRight, ModNone)
  , ([0x1b, 0x5b, 0x44], KeyLeft, ModNone)
  , ([0x1b, 0x5b, 0x48], KeyHome, ModNone)
  , ([0x1b, 0x5b, 0x46], KeyEnd, ModNone)
  , ([0x1b, 0x5b, 0x32, 0x7e], KeyInsert, ModNone)
  , ([0x1b, 0x5b, 0x33, 0x7e], KeyDelete, ModNone)
  , ([0x1b, 0x5b, 0x35, 0x7e], KeyPageUp, ModNone)
  , ([0x1b, 0x5b, 0x36, 0x7e], KeyPageDown, ModNone)
  , ([0x1b, 0x4f, 0x50], KeyF1, ModNone)
  , ([0x1b, 0x4f, 0x51], KeyF2, ModNone)
  , ([0x1b, 0x4f, 0x52], KeyF3, ModNone)
  , ([0x1b, 0x4f, 0x53], KeyF4, ModNone)
  , ([0x1b, 0x5b, 0x31, 0x35, 0x7e], KeyF5, ModNone)
  , ([0x1b, 0x5b, 0x31, 0x37, 0x7e], KeyF6, ModNone)
  , ([0x1b, 0x5b, 0x31, 0x38, 0x7e], KeyF7, ModNone)
  , ([0x1b, 0x5b, 0x31, 0x39, 0x7e], KeyF8, ModNone)
  , ([0x1b, 0x5b, 0x32, 0x30, 0x7e], KeyF9, ModNone)
  , ([0x1b, 0x5b, 0x32, 0x31, 0x7e], KeyF10, ModNone)
  , ([0x1b, 0x5b, 0x32, 0x33, 0x7e], KeyF11, ModNone)
  , ([0x1b, 0x5b, 0x32, 0x34, 0x7e], KeyF12, ModNone) ]

/-- Model of `NewSequenceParser`: empty root, then buildTrie insertions. -/
def parserRoot : SequenceNode :=
  escapeSequences.foldl (fun t e => addSequence t e.1 e.2.1 e.2.2)
    (.mk KeyUnknown ModNone [])

/-- Model of `SequenceParser.ctrlCharToKey`; note the 0x09 and 0x0d cases are
absent in the source (comments there say Tab and Enter are handled
separately), so they fall to the default KeyUnknown. -/
def ctrlCharToKey (b : Nat) : Key :=
  if b = 0x01 then KeyCtrlA
  else if b = 0x02 then KeyCtrlB
  else if b = 0x03 then KeyCtrlC
  else if b = 0x04 then KeyCtrlD
  else if b = 0x05 then KeyCtrlE
  else if b = 0x06 then KeyCtrlF
  else if b = 0x07 then KeyCtrlG
  else if b = 0x08 then KeyCtrlH
  else if b = 0x0a then KeyCtrlJ
  else if b = 0x0b then KeyCtrlK
  else if b = 0x0c then KeyCtrlL
  else if b = 0x0e then KeyCtrlN
  else if b = 0x0f then KeyCtrlO
  else if b = 0x10 then KeyCtrlP
  else if b = 0x11 then KeyCtrlQ
  else if b = 0x12 then KeyCtrlR
  else if b = 0x13 then KeyCtrlS
  else if b = 0x14 then KeyCtrlT
  else if b = 0x15 then KeyCtrlU
  else if b = 0x16 then KeyCtrlV
  else if b = 0x17 then KeyCtrlW
  else if b = 0x18 then KeyCtrlX
  else if b = 0x19 then KeyCtrlY
  else if b = 0x1a then KeyCtrlZ
  else KeyUnknown

/-- Model of `SequenceParser.runeToKey`. -/
def runeToKey (r : Nat) : Key :=
  if 0x61 ≤ r ∧ r ≤ 0x7a then KeyA + (r - 0x61)
  else if 0x41 ≤ r ∧ r ≤ 0x5a then KeyA + (r - 0x41)
  else if 0x30 ≤ r ∧ r ≤ 0x39 then Key0 + (r - 0x30)
  else if r = 0x20 then KeySpace
  else if r = 0x09 then KeyTab
  else if r = 0x0d ∨ r = 0x0a then KeyEnter
  else KeyUnknown

/-- Trie walk inside `Parse` (the for loop over seq); none means a byte had
no child, in which case Parse yields KeyUnknown. -/
def trieWalk (node : SequenceNode) (seq : List Nat) : Option SequenceNode :=
  match seq with
  | [] => some node
  | b :: rest =>
    match assocFind node.children b with
    | some next => trieWalk next rest
    | none => none

/-- Model of `SequenceParser.Parse` over the given trie root.  The base
event carries Go zero values for Key, Rune and Modifiers with
Pressed = true, Repeat = false. -/
def parse (root : SequenceNode) (seq : List Nat) : Except ParseErr Event :=
  match seq with
  | [] => .error .emptySequence
  | b :: rest =>
    -- single-byte dispatch (len(seq) == 1)
    if rest = [] ∧ b = 0x1b then
      .ok ⟨KeyEscape, 0, ModNone, true, false⟩
    else if rest = [] ∧ 0x01 ≤ b ∧ b ≤ 0x1a then
      .ok ⟨ctrlCharToKey b, 0, ModCtrl, true, false⟩
    else if rest = [] ∧ b = 0x09 then
      .ok ⟨KeyTab, 0x09, ModNone, true, false⟩
    else if rest = [] ∧ b = 0x0d then
      .ok ⟨KeyEnter, 0x0d, ModNone, true, false⟩
    else if rest = [] ∧ (b = 0x7f ∨ b = 0x08) then
      .ok ⟨KeyBackspace, 0, ModNone, true, false⟩
    else if rest = [] ∧ b = 0x20 then
      .ok ⟨KeySpace, 0x20, ModNone, true, false⟩
    else if rest = [] ∧ 0x20 ≤ b ∧ b ≤ 0x7e then
      .ok ⟨runeToKey b, b, ModNone, true, false⟩
    else if rest = [] ∧ b < 0x80 then
      -- unknown single byte below 0x80
      .ok ⟨KeyUnknown, 0, ModNone, true, false⟩
    else
      -- UTF-8 multi-byte handling, then the trie
      if 0x80 ≤ b ∧ b ≠ 0x1b then
        if utf8FullRune seq = false then .error .incompleteUtf8
        else
          if (utf8DecodeRune seq).1 = 0xFFFD ∧ (utf8DecodeRune seq).2 = 1 then
            .ok ⟨KeyUnknown, 0xFFFD, ModNone, true, false⟩
          else
            .ok ⟨KeyUnknown, (utf8DecodeRune seq).1, ModNone, true, false⟩
      else
        match trieWalk root seq with
        | none => .ok ⟨KeyUnknown, 0, ModNone, true, false⟩
        | some node =>
          if node.key ≠ KeyUnknown then
            .ok ⟨node.key, 0, node.modifier, true, false⟩
          else
            .ok ⟨KeyUnknown, 0, ModNone, true, false⟩

/-- Parse with the trie built by NewSequenceParser, as used by the backend. -/
def Parse (seq : List Nat) : Except ParseErr Event :=
  parse parserRoot seq

/-! Backend model (backend_unix_darwin.go).  A call to ReadEvent is given
the list of chunks the terminal device will deliver to successive reads
during that call: the first (blocking) read takes the first chunk; each
timeout-bounded read takes the next chunk if one is available and
otherwise times out.  The pooled scratch buffer is invisible here: its
contents are copied into pendingBuf immediately after each read. -/

/-- Persistent backend state: the pending-bytes accumulator. -/
structure BackendState where
  pendingBuf : List Nat
deriving DecidableEq, Repr

/-- Error result of ReadEvent: a failed device read, or a parse error
passed through. -/
inductive ReadErr where
  | device
  | parseErr (e : ParseErr)
deriving DecidableEq, Repr

/-- Model of the single extra timeout read ReadEvent performs when the
accumulator starts a multi-byte UTF-8 character that is not yet complete. -/
def utf8ExtraRead (pending : List Nat) (chunks : List (List Nat)) :
    List Nat × List (List Nat) :=
  match pending with
  | [] => ([], chunks)
  | p0 :: _ =>
    if 0x80 ≤ p0 ∧ p0 ≠ 0x1b ∧ utf8FullRune pending = false ∧ pending.length < 4 then
      match chunks with
      | [] => (pending, [])
      | c :: rest => if c = [] then (pending, rest) else (pending ++ c, rest)
    else (pending, chunks)

/-- Model of the escape-sequence read loop: keep appending timeout reads
until a read yields no data or the accumulator reaches 16 bytes. -/
def escapeReads (pending : List Nat) (chunks : List (List Nat)) :
    List Nat × List (List Nat) :=
  match chunks with
  | [] => (pending, [])
  | c :: rest =>
    if 16 ≤ pending.length then (pending, c :: rest)
    else if c = [] then (pending, rest)
    else escapeReads (pending ++ c) rest

/-- Model of the one retry ReadEvent performs when Parse reports an
incomplete UTF-8 sequence. -/
def retryParse (pending : List Nat) (res : Except ParseErr Event)
    (chunks : List (List Nat)) : Except ParseErr Event × List (List Nat) :=
  match res with
  | .error .incompleteUtf8 =>
    if pending.length < 4 then
      match chunks with
      | [] => (res, [])
      | c :: rest => if c = [] then (res, rest) else (Parse (pending ++ c), rest)
    else (res, chunks)
  | _ => (res, chunks)

/-- Model of `unixBackend.ReadEvent`.  Returns the result, the new backend
state, and the device chunks left unread.  Note the accumulator is reset
to empty at the end of every call (`b.pendingBuf = b.pendingBuf[:0]`),
whether or not parsing succeeded. -/
def readEvent (st : BackendState) (chunks : List (List Nat)) :
    Except ReadErr Event × BackendState × List (List Nat) :=
  match chunks with
  | [] => (.error .device, st, [])
  | c :: rest =>
    let pending0 := st.pendingBuf ++ c
    let pr1 := utf8ExtraRead pending0 rest
    let pr2 :=
      match pr1.1 with
      | p0 :: _ => if p0 = 0x1b then escapeReads pr1.1 pr1.2 else pr1
      | [] => pr1
    let res := Parse pr2.1
    let pr3 := retryParse pr2.1 res pr2.2
    (match pr3.1 with
     | .ok e => .ok e
     | .error pe => .error (.parseErr pe), ⟨[]⟩, pr3.2)

/-! Facade and capture-loop model (impl.go).  Channel closing is modelled
by the doneClosed / eventsClosed flags; the buffered events channel is the
queue list.  The key-state map is an association list. -/

/-- Association-list read of the keyState map; a missing key reads false,
like a Go map of bool. -/
def lookupKey (ks : List (Key × Bool)) (k : Key) : Bool :=
  match ks with
  | [] => false
  | (k0, v) :: rest => if k0 = k then v else lookupKey rest k

/-- Association-list write of the keyState map. -/
def setKey (ks : List (Key × Bool)) (k : Key) (v : Bool) : List (Key × Bool) :=
  match ks with
  | [] => [(k, v)]
  | (k0, w) :: rest => if k0 = k then (k0, v) :: rest else (k0, w) :: setKey rest k v

/-- Model of `inputImpl.updateKeyState`: sets the key true on a press and
false on a release. -/
def updateKeyState (ks : List (Key × Bool)) (e : Event) : List (Key × Bool) :=
  setKey ks e.Key e.Pressed

/-- State of one `inputImpl` instance.  restoreCount counts how many times
`Restore` actually reapplied the saved termios state. -/
structure ImplState where
  started : Bool
  stopping : Bool
  stopOnceUsed : Bool
  doneClosed : Bool
  eventsClosed : Bool
  queue : List Event
  keyState : List (Key × Bool)
  backendInited : Bool
  restoreCount : Nat
deriving DecidableEq, Repr

/-- Model of `New()`: fresh channels, empty key state, nothing started. -/
def newImpl : ImplState :=
  ⟨false, false, false, false, false, [], [], false, 0⟩

/-- Model of `inputImpl.Start` with a backend whose Init succeeds.  Note it
touches neither the queue nor the key-state map. -/
def start (s : ImplState) : ImplState × Except String Unit :=
  if s.started then (s, .error "input already started")
  else ({ s with started := true, backendInited := true }, .ok ())

/-- Model of `inputImpl.Stop`.  The sync.Once guard is consumed by the
first call even when the instance was never started; only a first call
that finds the instance started closes done, restores the terminal,
closes and drains the events channel. -/
def stop (s : ImplState) : ImplState :=
  if s.stopOnceUsed then s
  else
    let s1 := { s with stopOnceUsed := true }
    if s1.started = false then s1
    else
      { s1 with
        stopping := true
        doneClosed := true
        restoreCount := if s1.backendInited then s1.restoreCount + 1 else s1.restoreCount
        started := false
        eventsClosed := true
        queue := [] }

/-- The outcomes the select in `inputImpl.Poll` can take: receiving a
queued event (updating keyState before returning it), receiving the
zero value from a closed empty events channel, or observing the closed
done channel.  An empty list means every select arm blocks. -/
def pollSteps (s : ImplState) : List (Event × Bool × ImplState) :=
  (match s.queue with
   | e :: rest =>
     [(e, true, { s with queue := rest, keyState := updateKeyState s.keyState e })]
   | [] => if s.eventsClosed then [(zeroEvent, false, s)] else [])
  ++ (if s.doneClosed then [(zeroEvent, false, s)] else [])

/-- Model of `inputImpl.Next`: non-blocking receive; a closed empty events
channel yields the zero Event, which is run through updateKeyState and
returned as a non-nil pointer. -/
def next (s : ImplState) : Option Event × ImplState :=
  match s.queue with
  | e :: rest =>
    (some e, { s with queue := rest, keyState := updateKeyState s.keyState e })
  | [] =>
    if s.eventsClosed then
      (some zeroEvent, { s with keyState := updateKeyState s.keyState zeroEvent })
    else (none, s)

/-- Model of `inputImpl.IsPressed`. -/
def isPressed (s : ImplState) (k : Key) : Bool := lookupKey s.keyState k

/-- One backend read as seen by the capture loop. -/
inductive ReadOutcome where
  | ok (e : Event)
  | eof
  | err
deriving DecidableEq, Repr

/-- How a run of the capture loop ended. -/
inductive LoopExit where
  | blocked
  | exitEof
  | exitErrors
deriving DecidableEq, Repr

/-- Model of `inputImpl.captureLoop` run against a list of backend read
outcomes, with no shutdown signal arriving: EOF exits, the tenth
consecutive error exits, a success resets the counter and appends the
event to the queue.  Exhausting the list leaves the loop blocked in the
device read.  The loop closes no channel on exit. -/
def captureRun : List ReadOutcome → Nat → List Event → List Event × LoopExit
  | [], _, q => (q, .blocked)
  | .eof :: _, _, q => (q, .exitEof)
  | .err :: rest, cErr, q =>
    if 10 ≤ cErr + 1 then (q, .exitErrors) else captureRun rest (cErr + 1) q
  | .ok e :: rest, _, q => captureRun rest 0 (q ++ [e])

/-- The success path of one capture-loop iteration (impl.go lines 176-188):
the event is sent to the events channel; the key-state map is not
touched there. -/
def captureSuccessStep (s : ImplState) (e : Event) : ImplState :=
  { s with queue := s.queue ++ [e] }

/-- Standard UTF-8 encoding of a Unicode scalar value (the spec's
`encode_utf8`); for the claims only the 2-, 3- and 4-byte ranges matter. -/
def encodeUtf8 (V : Nat) : List Nat :=
  if V < 0x80 then [V]
  else if V < 0x800 then [0xC0 + V / 64, 0x80 + V % 64]
  else if V < 0x10000 then
    [0xE0 + V / 4096, 0x80 + V / 64 % 64, 0x80 + V % 64]
  else
    [0xF0 + V / 262144, 0x80 + V / 4096 % 64, 0x80 + V / 64 % 64, 0x80 + V % 64]

/-- Unicode scalar values whose UTF-8 encoding is 2 to 4 bytes long:
at least 0x80, at most 0x10FFFF, and not a surrogate. -/
def UnicodeScalarMulti (V : Nat) : Prop :=
  0x80 ≤ V ∧ V ≤ 0x10FFFF ∧ ¬(0xD800 ≤ V ∧ V ≤ 0xDFFF)

instance (V : Nat) : Decidable (UnicodeScalarMulti V) := by
  unfold UnicodeScalarMulti; infer_instance

section Utf8Lemmas

lemma utf8first_ascii {b : Nat} (h : b ≤ 0x7F) : utf8first b = 0xF0 := by
  unfold utf8first; split_ifs; omega

lemma utf8first_invalid_lo {b : Nat} (h1 : 0x80 ≤ b) (h2 : b ≤ 0xC1) :
    utf8first b = 0xF1 := by
  unfold utf8first; split_ifs <;> omega

lemma utf8first_two {b : Nat} (h1 : 0xC2 ≤ b) (h2 : b ≤ 0xDF) :
    utf8first b = 0x02 := by
  unfold utf8first; split_ifs <;> omega

lemma utf8first_e0 : utf8first 0xE0 = 0x13 := by decide

lemma utf8first_three_lo {b : Nat} (h1 : 0xE1 ≤ b) (h2 : b ≤ 0xEC) :
    utf8first b = 0x03 := by
  unfold utf8first; split_ifs <;> omega

lemma utf8first_ed : utf8first 0xED = 0x23 := by decide

lemma utf8first_three_hi {b : Nat} (h1 : 0xEE ≤ b) (h2 : b ≤ 0xEF) :
    utf8first b = 0x03 := by
  unfold utf8first; split_ifs <;> omega

lemma utf8first_f0 : utf8first 0xF0 = 0x34 := by decide

lemma utf8first_four_mid {b : Nat} (h1 : 0xF1 ≤ b) (h2 : b ≤ 0xF3) :
    utf8first b = 0x04 := by
  unfold utf8first; split_ifs <;> omega

lemma utf8first_f4 : utf8first 0xF4 = 0x44 := by decide

lemma utf8first_invalid_hi {b : Nat} (h1 : 0xF5 ≤ b) : utf8first b = 0xF1 := by
  unfold utf8first; split_ifs <;> omega

lemma encodeUtf8_two {V : Nat} (h1 : 0x80 ≤ V) (h2 : V < 0x800) :
    encodeUtf8 V = [0xC0 + V / 64, 0x80 + V % 64] := by
  unfold encodeUtf8; split_ifs <;> first | rfl | omega

lemma encodeUtf8_three {V : Nat} (h1 : 0x800 ≤ V) (h2 : V < 0x10000) :
    encodeUtf8 V = [0xE0 + V / 4096, 0x80 + V / 64 % 64, 0x80 + V % 64] := by
  unfold encodeUtf8; split_ifs <;> first | rfl | omega

lemma encodeUtf8_four {V : Nat} (h1 : 0x10000 ≤ V) :
    encodeUtf8 V = [0xF0 + V / 262144, 0x80 + V / 4096 % 64,
      0x80 + V / 64 % 64, 0x80 + V % 64] := by
  unfold encodeUtf8; split_ifs <;> first | rfl | omega

lemma utf8FullRune_encode_two {V : Nat} (h1 : 0x80 ≤ V) (h2 : V < 0x800) :
    utf8FullRune (encodeUtf8 V) = true := by
  rw [encodeUtf8_two h1 h2]
  have hx : utf8first (0xC0 + V / 64) = 0x02 := utf8first_two (by omega) (by omega)
  simp [utf8FullRune, hx]

lemma utf8DecodeRune_encode_two {V : Nat} (h1 : 0x80 ≤ V) (h2 : V < 0x800) :
    utf8DecodeRune (encodeUtf8 V) = (V, 2) := by
  rw [encodeUtf8_two h1 h2]
  have hx : utf8first (0xC0 + V / 64) = 0x02 := utf8first_two (by omega) (by omega)
  simp only [utf8DecodeRune, hx, acceptRange]
  norm_num
  split_ifs with h
  · exact absurd h (by omega)
  · simp only [Prod.mk.injEq]
    exact ⟨by omega, trivial⟩

lemma utf8first_three_class {b : Nat} (h1 : 0xE0 ≤ b) (h2 : b ≤ 0xEF) :
    utf8first b % 8 = 3 ∧ utf8first b < 0xF0 := by
  unfold utf8first; split_ifs <;> omega

lemma utf8first_four_class {b : Nat} (h1 : 0xF0 ≤ b) (h2 : b ≤ 0xF4) :
    utf8first b % 8 = 4 ∧ utf8first b < 0xF0 := by
  unfold utf8first; split_ifs <;> omega

lemma utf8FullRune_encode_three {V : Nat} (h1 : 0x800 ≤ V) (h2 : V < 0x10000) :
    utf8FullRune (encodeUtf8 V) = true := by
  rw [encodeUtf8_three h1 h2]
  have hcls : utf8first (0xE0 + V / 4096) % 8 = 3 :=
    (utf8first_three_class (by omega) (by omega)).1
  simp [utf8FullRune, hcls]

lemma utf8FullRune_encode_four {V : Nat} (h1 : 0x10000 ≤ V) (h2 : V ≤ 0x10FFFF) :
    utf8FullRune (encodeUtf8 V) = true := by
  rw [encodeUtf8_four h1]
  have hcls : utf8first (0xF0 + V / 262144) % 8 = 4 :=
    (utf8first_four_class (by omega) (by omega)).1
  simp [utf8FullRune, hcls]

lemma utf8DecodeRune_encode_three {V : Nat} (h1 : 0x800 ≤ V) (h2 : V < 0x10000)
    (h3 : ¬(0xD800 ≤ V ∧ V ≤ 0xDFFF)) :
    utf8DecodeRune (encodeUtf8 V) = (V, 3) := by
  rw [encodeUtf8_three h1 h2]
  by_cases hA : V < 0x1000
  · have he : 0xE0 + V / 4096 = 0xE0 := by omega
    rw [he]
    simp only [utf8DecodeRune, utf8first_e0, acceptRange]
    norm_num
    split_ifs with h h'
    · exact absurd h (by omega)
    · exact absurd h' (by omega)
    · simp only [Prod.mk.injEq]
      exact ⟨by omega, trivial⟩
  · by_cases hB : V < 0xD000
    · have hx : utf8first (0xE0 + V / 4096) = 0x03 :=
        utf8first_three_lo (by omega) (by omega)
      simp only [utf8DecodeRune, hx, acceptRange]
      norm_num
      split_ifs with h h'
      · exact absurd h (by omega)
      · exact absurd h' (by omega)
      · simp only [Prod.mk.injEq]
        exact ⟨by omega, trivial⟩
    · by_cases hC : V < 0xE000
      · have he : 0xE0 + V / 4096 = 0xED := by omega
        rw [he]
        simp only [utf8DecodeRune, utf8first_ed, acceptRange]
        norm_num
        split_ifs with h h'
        · exact absurd h (by omega)
        · exact absurd h' (by omega)
        · simp only [Prod.mk.injEq]
          exact ⟨by omega, trivial⟩
      · have hx : utf8first (0xE0 + V / 4096) = 0x03 :=
          utf8first_three_hi (by omega) (by omega)
        simp only [utf8DecodeRune, hx, acceptRange]
        norm_num
        split_ifs with h h'
        · exact absurd h (by omega)
        · exact absurd h' (by omega)
        · simp only [Prod.mk.injEq]
          exact ⟨by omega, trivial⟩

lemma utf8DecodeRune_encode_four {V : Nat} (h1 : 0x10000 ≤ V) (h2 : V ≤ 0x10FFFF) :
    utf8DecodeRune (encodeUtf8 V) = (V, 4) := by
  rw [encodeUtf8_four h1]
  by_cases hA : V < 0x40000
  · have he : 0xF0 + V / 262144 = 0xF0 := by omega
    rw [he]
    simp only [utf8DecodeRune, utf8first_f0, acceptRange]
    norm_num
    split_ifs with h h' h''
    · exact absurd h (by omega)
    · exact absurd h' (by omega)
    · exact absurd h'' (by omega)
    · simp only [Prod.mk.injEq]
      exact ⟨by omega, trivial⟩
  · by_cases hB : V < 0x100000
    · have hx : utf8first (0xF0 + V / 262144) = 0x04 :=
        utf8first_four_mid (by omega) (by omega)
      simp only [utf8DecodeRune, hx, acceptRange]
      norm_num
      split_ifs with h h' h''
      · exact absurd h (by omega)
      · exact absurd h' (by omega)
      · exact absurd h'' (by omega)
      · simp only [Prod.mk.injEq]
        exact ⟨by omega, trivial⟩
    · have he : 0xF0 + V / 262144 = 0xF4 := by omega
      rw [he]
      simp only [utf8DecodeRune, utf8first_f4, acceptRange]
      norm_num
      split_ifs with h h' h''
      · exact absurd h (by omega)
      · exact absurd h' (by omega)
      · exact absurd h'' (by omega)
      · simp only [Prod.mk.injEq]
        exact ⟨by omega, trivial⟩

lemma parse_utf8_path {b : Nat} {r : List Nat} (hb : 0x80 ≤ b)
    (hfull : utf8FullRune (b :: r) = true)
    (hdec : (utf8DecodeRune (b :: r)).2 ≠ 1) :
    Parse (b :: r) = .ok ⟨KeyUnknown, (utf8DecodeRune (b :: r)).1, ModNone,
      true, false⟩ := by
  simp only [Parse, parse]
  rw [if_neg (show ¬(r = [] ∧ b = 0x1b) from fun h => absurd h.2 (by omega))]
  rw [if_neg (show ¬(r = [] ∧ 0x01 ≤ b ∧ b ≤ 0x1a) from
    fun h => absurd h.2.2 (by omega))]
  rw [if_neg (show ¬(r = [] ∧ b = 0x09) from fun h => absurd h.2 (by omega))]
  rw [if_neg (show ¬(r = [] ∧ b = 0x0d) from fun h => absurd h.2 (by omega))]
  rw [if_neg (show ¬(r = [] ∧ (b = 0x7f ∨ b = 0x08)) from
    fun h => h.2.elim (fun e => absurd e (by omega)) (fun e => absurd e (by omega)))]
  rw [if_neg (show ¬(r = [] ∧ b = 0x20) from fun h => absurd h.2 (by omega))]
  rw [if_neg (show ¬(r = [] ∧ 0x20 ≤ b ∧ b ≤ 0x7e) from
    fun h => absurd h.2.2 (by omega))]
  rw [if_neg (show ¬(r = [] ∧ b < 0x80) from fun h => absurd h.2 (by omega))]
  rw [if_pos (show 0x80 ≤ b ∧ b ≠ 0x1b from ⟨hb, by omega⟩)]
  rw [if_neg (show ¬(utf8FullRune (b :: r) = false) from by simp [hfull])]
  rw [if_neg (show ¬((utf8DecodeRune (b :: r)).1 = 0xFFFD ∧
    (utf8DecodeRune (b :: r)).2 = 1) from fun h => absurd h.2 hdec)]

lemma parse_encodeUtf8 {V : Nat} (h : UnicodeScalarMulti V) :
    Parse (encodeUtf8 V) = .ok ⟨KeyUnknown, V, ModNone, true, false⟩ := by
  obtain ⟨hlo, hhi, hsur⟩ := h
  by_cases h2 : V < 0x800
  · have henc := encodeUtf8_two hlo h2
    have hfull := utf8FullRune_encode_two hlo h2
    have hdec := utf8DecodeRune_encode_two hlo h2
    rw [henc] at hfull hdec ⊢
    have hne : (utf8DecodeRune [0xC0 + V / 64, 0x80 + V % 64]).2 ≠ 1 := by
      rw [hdec]; simp
    have hp := parse_utf8_path (b := 0xC0 + V / 64) (by omega) hfull hne
    rw [hdec] at hp
    exact hp
  · by_cases h3 : V < 0x10000
    · have henc := encodeUtf8_three (by omega) h3
      have hfull := utf8FullRune_encode_three (by omega) h3
      have hdec := utf8DecodeRune_encode_three (by omega) h3 hsur
      rw [henc] at hfull hdec ⊢
      have hne : (utf8DecodeRune
          [0xE0 + V / 4096, 0x80 + V / 64 % 64, 0x80 + V % 64]).2 ≠ 1 := by
        rw [hdec]; simp
      have hp := parse_utf8_path (b := 0xE0 + V / 4096) (by omega) hfull hne
      rw [hdec] at hp
      exact hp
    · have henc := encodeUtf8_four (V := V) (by omega)
      have hfull := utf8FullRune_encode_four (V := V) (by omega) hhi
      have hdec := utf8DecodeRune_encode_four (V := V) (by omega) hhi
      rw [henc] at hfull hdec ⊢
      have hne : (utf8DecodeRune [0xF0 + V / 262144, 0x80 + V / 4096 % 64,
          0x80 + V / 64 % 64, 0x80 + V % 64]).2 ≠ 1 := by
        rw [hdec]; simp
      have hp := parse_utf8_path (b := 0xF0 + V / 262144) (by omega) hfull hne
      rw [hdec] at hp
      exact hp

lemma utf8first_mod8_le_four (b : Nat) : utf8first b % 8 ≤ 4 := by
  unfold utf8first; split_ifs <;> omega

lemma utf8first_mod8_le_one {b : Nat}
    (h : ¬((0xC2 ≤ b ∧ b ≤ 0xDF) ∨ (0xE0 ≤ b ∧ b ≤ 0xEF) ∨ (0xF0 ≤ b ∧ b ≤ 0xF4))) :
    utf8first b % 8 ≤ 1 := by
  unfold utf8first; split_ifs <;> omega

lemma fullRune_one_false (c0 : Nat) :
    utf8FullRune [c0] = false ↔ 2 ≤ utf8first c0 % 8 := by
  simp only [utf8FullRune, List.length_singleton]
  split_ifs with h <;> simp <;> omega

lemma fullRune_two_false (c0 c1 : Nat) :
    utf8FullRune [c0, c1] = false ↔
      (3 ≤ utf8first c0 % 8 ∧ (acceptRange (utf8first c0 / 16)).1 ≤ c1 ∧
        c1 ≤ (acceptRange (utf8first c0 / 16)).2) := by
  simp only [utf8FullRune]
  split_ifs with h h' <;> simp_all <;> omega

lemma fullRune_three_false (c0 c1 c2 : Nat) :
    utf8FullRune [c0, c1, c2] = false ↔
      (4 ≤ utf8first c0 % 8 ∧ (acceptRange (utf8first c0 / 16)).1 ≤ c1 ∧
        c1 ≤ (acceptRange (utf8first c0 / 16)).2 ∧ 0x80 ≤ c2 ∧ c2 ≤ 0xBF) := by
  simp only [utf8FullRune]
  split_ifs with h h' h'' <;> simp_all <;> omega

lemma fullRune_of_long {b : Nat} {r : List Nat} (h : 3 ≤ r.length) :
    utf8FullRune (b :: r) = true := by
  simp only [utf8FullRune, List.length_cons]
  rw [if_pos (by have := utf8first_mod8_le_four b; omega)]

lemma encode_head_ge {V : Nat} (h : UnicodeScalarMulti V) :
    ∃ c0 cr, encodeUtf8 V = c0 :: cr ∧ 0xC2 ≤ c0 ∧ c0 ≤ 0xF4 := by
  obtain ⟨hlo, hhi, hsur⟩ := h
  by_cases h2 : V < 0x800
  · exact ⟨_, _, encodeUtf8_two hlo h2, by omega, by omega⟩
  · by_cases h3 : V < 0x10000
    · exact ⟨_, _, encodeUtf8_three (by omega) h3, by omega, by omega⟩
    · exact ⟨_, _, encodeUtf8_four (by omega), by omega, by omega⟩

lemma notFull_of_take {V : Nat} (h : UnicodeScalarMulti V) {i : Nat}
    (h1 : 0 < i) (h2 : i < (encodeUtf8 V).length) :
    utf8FullRune ((encodeUtf8 V).take i) = false := by
  obtain ⟨hlo, hhi, hsur⟩ := h
  by_cases hc2 : V < 0x800
  · rw [encodeUtf8_two hlo hc2] at h2 ⊢
    simp only [List.length_cons, List.length_nil] at h2
    have hi : i = 1 := by omega
    subst hi
    simp only [List.take_succ_cons, List.take_zero]
    rw [fullRune_one_false, utf8first_two (by omega) (by omega)]
  · by_cases hc3 : V < 0x10000
    · rw [encodeUtf8_three (by omega) hc3] at h2 ⊢
      simp only [List.length_cons, List.length_nil] at h2
      have hx3 : utf8first (0xE0 + V / 4096) % 8 = 3 :=
        (utf8first_three_class (by omega) (by omega)).1
      rcases (by omega : i = 1 ∨ i = 2) with hi | hi <;> subst hi
      · simp only [List.take_succ_cons, List.take_zero]
        rw [fullRune_one_false]
        omega
      · simp only [List.take_succ_cons, List.take_zero]
        rw [fullRune_two_false]
        refine ⟨by omega, ?_, ?_⟩
        · -- second-byte lower bound, by lead-byte class
          by_cases hA : V < 0x1000
          · have he : 0xE0 + V / 4096 = 0xE0 := by omega
            rw [he, utf8first_e0]
            norm_num [acceptRange]
            omega
          · by_cases hB : V < 0xD000
            · rw [utf8first_three_lo (by omega) (by omega)]
              norm_num [acceptRange]
            · by_cases hC : V < 0xE000
              · have he : 0xE0 + V / 4096 = 0xED := by omega
                rw [he, utf8first_ed]
                norm_num [acceptRange]
              · rw [utf8first_three_hi (by omega) (by omega)]
                norm_num [acceptRange]
        · by_cases hA : V < 0x1000
          · have he : 0xE0 + V / 4096 = 0xE0 := by omega
            rw [he, utf8first_e0]
            norm_num [acceptRange]
            omega
          · by_cases hB : V < 0xD000
            · rw [utf8first_three_lo (by omega) (by omega)]
              norm_num [acceptRange]
              omega
            · by_cases hC : V < 0xE000
              · have he : 0xE0 + V / 4096 = 0xED := by omega
                rw [he, utf8first_ed]
                norm_num [acceptRange]
                omega
              · rw [utf8first_three_hi (by omega) (by omega)]
                norm_num [acceptRange]
                omega
    · rw [encodeUtf8_four (V := V) (by omega)] at h2 ⊢
      simp only [List.length_cons, List.length_nil] at h2
      have hx4 : utf8first (0xF0 + V / 262144) % 8 = 4 :=
        (utf8first_four_class (by omega) (by omega)).1
      have hacc : (acceptRange (utf8first (0xF0 + V / 262144) / 16)).1 ≤
            0x80 + V / 4096 % 64 ∧
          0x80 + V / 4096 % 64 ≤ (acceptRange (utf8first (0xF0 + V / 262144) / 16)).2 := by
        by_cases hA : V < 0x40000
        · have he : 0xF0 + V / 262144 = 0xF0 := by omega
          rw [he, utf8first_f0]
          norm_num [acceptRange]
          omega
        · by_cases hB : V < 0x100000
          · rw [utf8first_four_mid (by omega) (by omega)]
            norm_num [acceptRange]
            omega
          · have he : 0xF0 + V / 262144 = 0xF4 := by omega
            rw [he, utf8first_f4]
            norm_num [acceptRange]
            omega
      rcases (by omega : i = 1 ∨ i = 2 ∨ i = 3) with hi | hi | hi <;> subst hi
      · simp only [List.take_succ_cons, List.take_zero]
        rw [fullRune_one_false]
        omega
      · simp only [List.take_succ_cons, List.take_zero]
        rw [fullRune_two_false]
        exact ⟨by omega, hacc.1, hacc.2⟩
      · simp only [List.take_succ_cons, List.take_zero]
        rw [fullRune_three_false]
        exact ⟨by omega, hacc.1, hacc.2, by omega, by omega⟩

lemma utf8first_mod8_le_two {b : Nat}
    (h : ¬((0xE0 ≤ b ∧ b ≤ 0xEF) ∨ (0xF0 ≤ b ∧ b ≤ 0xF4))) :
    utf8first b % 8 ≤ 2 := by
  unfold utf8first; split_ifs <;> omega

lemma utf8first_mod8_le_three {b : Nat} (h : ¬(0xF0 ≤ b ∧ b ≤ 0xF4)) :
    utf8first b % 8 ≤ 3 := by
  unfold utf8first; split_ifs <;> omega

lemma exists_completion {b : Nat} {r : List Nat} (hb : 0x80 ≤ b)
    (hf : utf8FullRune (b :: r) = false) :
    ∃ V t, UnicodeScalarMulti V ∧ t ≠ [] ∧ b :: r ++ t = encodeUtf8 V := by
  match r with
  | [] =>
    have h28 := (fullRune_one_false b).mp hf
    have hcls : (0xC2 ≤ b ∧ b ≤ 0xDF) ∨ (0xE0 ≤ b ∧ b ≤ 0xEF) ∨
        (0xF0 ≤ b ∧ b ≤ 0xF4) := by
      by_contra hc
      have := utf8first_mod8_le_one hc
      omega
    rcases hcls with ⟨hc1, hc2⟩ | ⟨hc1, hc2⟩ | ⟨hc1, hc2⟩
    · refine ⟨(b - 0xC0) * 64, [0x80], by unfold UnicodeScalarMulti; omega,
        by simp, ?_⟩
      simp only [List.cons_append, List.nil_append]
      rw [encodeUtf8_two (by omega) (by omega)]
      rw [show 0xC0 + (b - 0xC0) * 64 / 64 = b from by omega]
      rw [show 0x80 + (b - 0xC0) * 64 % 64 = 0x80 from by omega]
    · by_cases hE : b = 0xE0
      · exact ⟨0x800, [0xA0, 0x80], by decide, by simp, by rw [hE]; decide⟩
      · refine ⟨(b - 0xE0) * 4096, [0x80, 0x80],
          by unfold UnicodeScalarMulti; omega, by simp, ?_⟩
        simp only [List.cons_append, List.nil_append]
        rw [encodeUtf8_three (by omega) (by omega)]
        rw [show 0xE0 + (b - 0xE0) * 4096 / 4096 = b from by omega]
        rw [show 0x80 + (b - 0xE0) * 4096 / 64 % 64 = 0x80 from by omega]
        rw [show 0x80 + (b - 0xE0) * 4096 % 64 = 0x80 from by omega]
    · by_cases hF : b = 0xF0
      · exact ⟨0x10000, [0x90, 0x80, 0x80], by decide, by simp, by rw [hF]; decide⟩
      · refine ⟨(b - 0xF0) * 262144, [0x80, 0x80, 0x80],
          by unfold UnicodeScalarMulti; omega, by simp, ?_⟩
        simp only [List.cons_append, List.nil_append]
        rw [encodeUtf8_four (by omega)]
        rw [show 0xF0 + (b - 0xF0) * 262144 / 262144 = b from by omega]
        rw [show 0x80 + (b - 0xF0) * 262144 / 4096 % 64 = 0x80 from by omega]
        rw [show 0x80 + (b - 0xF0) * 262144 / 64 % 64 = 0x80 from by omega]
        rw [show 0x80 + (b - 0xF0) * 262144 % 64 = 0x80 from by omega]
  | [c1] =>
    obtain ⟨h38, hlo, hhi⟩ := (fullRune_two_false b c1).mp hf
    have hcls : (0xE0 ≤ b ∧ b ≤ 0xEF) ∨ (0xF0 ≤ b ∧ b ≤ 0xF4) := by
      by_contra hc
      have := utf8first_mod8_le_two hc
      omega
    rcases hcls with ⟨hc1, hc2⟩ | ⟨hc1, hc2⟩
    · -- three-byte lead with second byte present
      have hc1b : (acceptRange (utf8first b / 16)).1 ≤ c1 := hlo
      by_cases hE : b = 0xE0
      · subst hE
        rw [utf8first_e0] at hlo hhi
        norm_num [acceptRange] at hlo hhi
        refine ⟨(c1 - 0x80) * 64, [0x80], by unfold UnicodeScalarMulti; omega,
          by simp, ?_⟩
        simp only [List.cons_append, List.nil_append]
        rw [encodeUtf8_three (by omega) (by omega)]
        rw [show 0xE0 + (c1 - 0x80) * 64 / 4096 = 0xE0 from by omega]
        rw [show 0x80 + (c1 - 0x80) * 64 / 64 % 64 = c1 from by omega]
        rw [show 0x80 + (c1 - 0x80) * 64 % 64 = 0x80 from by omega]
      · by_cases hD : b = 0xED
        · subst hD
          rw [utf8first_ed] at hlo hhi
          norm_num [acceptRange] at hlo hhi
          refine ⟨0xD000 + (c1 - 0x80) * 64, [0x80],
            by unfold UnicodeScalarMulti; omega, by simp, ?_⟩
          simp only [List.cons_append, List.nil_append]
          rw [encodeUtf8_three (by omega) (by omega)]
          rw [show 0xE0 + (0xD000 + (c1 - 0x80) * 64) / 4096 = 0xED from by omega]
          rw [show 0x80 + (0xD000 + (c1 - 0x80) * 64) / 64 % 64 = c1 from by omega]
          rw [show 0x80 + (0xD000 + (c1 - 0x80) * 64) % 64 = 0x80 from by omega]
        · have hx : utf8first b = 0x03 := by
            rcases (by omega : b ≤ 0xEC ∨ 0xEE ≤ b) with h | h
            · exact utf8first_three_lo (by omega) h
            · exact utf8first_three_hi h (by omega)
          rw [hx] at hlo hhi
          norm_num [acceptRange] at hlo hhi
          refine ⟨(b - 0xE0) * 4096 + (c1 - 0x80) * 64, [0x80],
            by unfold UnicodeScalarMulti; omega, by simp, ?_⟩
          simp only [List.cons_append, List.nil_append]
          rw [encodeUtf8_three (by omega) (by omega)]
          rw [show 0xE0 + ((b - 0xE0) * 4096 + (c1 - 0x80) * 64) / 4096 = b
            from by omega]
          rw [show 0x80 + ((b - 0xE0) * 4096 + (c1 - 0x80) * 64) / 64 % 64 = c1
            from by omega]
          rw [show 0x80 + ((b - 0xE0) * 4096 + (c1 - 0x80) * 64) % 64 = 0x80
            from by omega]
    · -- four-byte lead with second byte present
      by_cases hF : b = 0xF0
      · subst hF
        rw [utf8first_f0] at hlo hhi
        norm_num [acceptRange] at hlo hhi
        refine ⟨(c1 - 0x80) * 4096, [0x80, 0x80],
          by unfold UnicodeScalarMulti; omega, by simp, ?_⟩
        simp only [List.cons_append, List.nil_append]
        rw [encodeUtf8_four (by omega)]
        rw [show 0xF0 + (c1 - 0x80) * 4096 / 262144 = 0xF0 from by omega]
        rw [show 0x80 + (c1 - 0x80) * 4096 / 4096 % 64 = c1 from by omega]
        rw [show 0x80 + (c1 - 0x80) * 4096 / 64 % 64 = 0x80 from by omega]
        rw [show 0x80 + (c1 - 0x80) * 4096 % 64 = 0x80 from by omega]
      · by_cases hG : b = 0xF4
        · subst hG
          rw [utf8first_f4] at hlo hhi
          norm_num [acceptRange] at hlo hhi
          refine ⟨0x100000 + (c1 - 0x80) * 4096, [0x80, 0x80],
            by unfold UnicodeScalarMulti; omega, by simp, ?_⟩
          simp only [List.cons_append, List.nil_append]
          rw [encodeUtf8_four (by omega)]
          rw [show 0xF0 + (0x100000 + (c1 - 0x80) * 4096) / 262144 = 0xF4
            from by omega]
          rw [show 0x80 + (0x100000 + (c1 - 0x80) * 4096) / 4096 % 64 = c1
            from by omega]
          rw [show 0x80 + (0x100000 + (c1 - 0x80) * 4096) / 64 % 64 = 0x80
            from by omega]
          rw [show 0x80 + (0x100000 + (c1 - 0x80) * 4096) % 64 = 0x80
            from by omega]
        · have hx : utf8first b = 0x04 := utf8first_four_mid (by omega) (by omega)
          rw [hx] at hlo hhi
          norm_num [acceptRange] at hlo hhi
          refine ⟨(b - 0xF0) * 262144 + (c1 - 0x80) * 4096, [0x80, 0x80],
            by unfold UnicodeScalarMulti; omega, by simp, ?_⟩
          simp only [List.cons_append, List.nil_append]
          rw [encodeUtf8_four (by omega)]
          rw [show 0xF0 + ((b - 0xF0) * 262144 + (c1 - 0x80) * 4096) / 262144 = b
            from by omega]
          rw [show 0x80 + ((b - 0xF0) * 262144 + (c1 - 0x80) * 4096) / 4096 % 64 = c1
            from by omega]
          rw [show 0x80 + ((b - 0xF0) * 262144 + (c1 - 0x80) * 4096) / 64 % 64 = 0x80
            from by omega]
          rw [show 0x80 + ((b - 0xF0) * 262144 + (c1 - 0x80) * 4096) % 64 = 0x80
            from by omega]
  | [c1, c2] =>
    obtain ⟨h48, hlo, hhi, hlo2, hhi2⟩ := (fullRune_three_false b c1 c2).mp hf
    have hcls : 0xF0 ≤ b ∧ b ≤ 0xF4 := by
      by_contra hc
      have := utf8first_mod8_le_three hc
      omega
    obtain ⟨hc1, hc2'⟩ := hcls
    by_cases hF : b = 0xF0
    · subst hF
      rw [utf8first_f0] at hlo hhi
      norm_num [acceptRange] at hlo hhi
      refine ⟨(c1 - 0x80) * 4096 + (c2 - 0x80) * 64, [0x80],
        by unfold UnicodeScalarMulti; omega, by simp, ?_⟩
      simp only [List.cons_append, List.nil_append]
      rw [encodeUtf8_four (by omega)]
      rw [show 0xF0 + ((c1 - 0x80) * 4096 + (c2 - 0x80) * 64) / 262144 = 0xF0
        from by omega]
      rw [show 0x80 + ((c1 - 0x80) * 4096 + (c2 - 0x80) * 64) / 4096 % 64 = c1
        from by omega]
      rw [show 0x80 + ((c1 - 0x80) * 4096 + (c2 - 0x80) * 64) / 64 % 64 = c2
        from by omega]
      rw [show 0x80 + ((c1 - 0x80) * 4096 + (c2 - 0x80) * 64) % 64 = 0x80
        from by omega]
    · by_cases hG : b = 0xF4
      · subst hG
        rw [utf8first_f4] at hlo hhi
        norm_num [acceptRange] at hlo hhi
        refine ⟨0x100000 + (c1 - 0x80) * 4096 + (c2 - 0x80) * 64, [0x80],
          by unfold UnicodeScalarMulti; omega, by simp, ?_⟩
        simp only [List.cons_append, List.nil_append]
        rw [encodeUtf8_four (by omega)]
        rw [show 0xF0 + (0x100000 + (c1 - 0x80) * 4096 + (c2 - 0x80) * 64) / 262144
          = 0xF4 from by omega]
        rw [show 0x80 + (0x100000 + (c1 - 0x80) * 4096 + (c2 - 0x80) * 64) / 4096
          % 64 = c1 from by omega]
        rw [show 0x80 + (0x100000 + (c1 - 0x80) * 4096 + (c2 - 0x80) * 64) / 64
          % 64 = c2 from by omega]
        rw [show 0x80 + (0x100000 + (c1 - 0x80) * 4096 + (c2 - 0x80) * 64) % 64
          = 0x80 from by omega]
      · have hx : utf8first b = 0x04 := utf8first_four_mid (by omega) (by omega)
        rw [hx] at hlo hhi
        norm_num [acceptRange] at hlo hhi
        refine ⟨(b - 0xF0) * 262144 + (c1 - 0x80) * 4096 + (c2 - 0x80) * 64, [0x80],
          by unfold UnicodeScalarMulti; omega, by simp, ?_⟩
        simp only [List.cons_append, List.nil_append]
        rw [encodeUtf8_four (by omega)]
        rw [show 0xF0 + ((b - 0xF0) * 262144 + (c1 - 0x80) * 4096 + (c2 - 0x80) * 64)
          / 262144 = b from by omega]
        rw [show 0x80 + ((b - 0xF0) * 262144 + (c1 - 0x80) * 4096 + (c2 - 0x80) * 64)
          / 4096 % 64 = c1 from by omega]
        rw [show 0x80 + ((b - 0xF0) * 262144 + (c1 - 0x80) * 4096 + (c2 - 0x80) * 64)
          / 64 % 64 = c2 from by omega]
        rw [show 0x80 + ((b - 0xF0) * 262144 + (c1 - 0x80) * 4096 + (c2 - 0x80) * 64)
          % 64 = 0x80 from by omega]
  | c1 :: c2 :: c3 :: r3 =>
    have := fullRune_of_long (b := b) (r := c1 :: c2 :: c3 :: r3) (by simp)
    rw [this] at hf
    cases hf

lemma parse_high_byte {b : Nat} {r : List Nat} (hb : 0x80 ≤ b) :
    Parse (b :: r) =
      if utf8FullRune (b :: r) = false then .error .incompleteUtf8
      else if (utf8DecodeRune (b :: r)).1 = 0xFFFD ∧ (utf8DecodeRune (b :: r)).2 = 1 then
        .ok ⟨KeyUnknown, 0xFFFD, ModNone, true, false⟩
      else .ok ⟨KeyUnknown, (utf8DecodeRune (b :: r)).1, ModNone, true, false⟩ := by
  simp only [Parse, parse]
  rw [if_neg (show ¬(r = [] ∧ b = 0x1b) from fun h => absurd h.2 (by omega))]
  rw [if_neg (show ¬(r = [] ∧ 0x01 ≤ b ∧ b ≤ 0x1a) from
    fun h => absurd h.2.2 (by omega))]
  rw [if_neg (show ¬(r = [] ∧ b = 0x09) from fun h => absurd h.2 (by omega))]
  rw [if_neg (show ¬(r = [] ∧ b = 0x0d) from fun h => absurd h.2 (by omega))]
  rw [if_neg (show ¬(r = [] ∧ (b = 0x7f ∨ b = 0x08)) from
    fun h => h.2.elim (fun e => absurd e (by omega)) (fun e => absurd e (by omega)))]
  rw [if_neg (show ¬(r = [] ∧ b = 0x20) from fun h => absurd h.2 (by omega))]
  rw [if_neg (show ¬(r = [] ∧ 0x20 ≤ b ∧ b ≤ 0x7e) from
    fun h => absurd h.2.2 (by omega))]
  rw [if_neg (show ¬(r = [] ∧ b < 0x80) from fun h => absurd h.2 (by omega))]
  rw [if_pos (show 0x80 ≤ b ∧ b ≠ 0x1b from ⟨hb, by omega⟩)]

lemma parse_ok_of_lowOrEsc {b : Nat} {r : List Nat} (hb : ¬(0x80 ≤ b ∧ b ≠ 0x1b))
    (e : ParseErr) : Parse (b :: r) ≠ .error e := by
  intro h
  simp only [Parse, parse] at h
  split_ifs at h with h1 h2 h3 h4 h5 h6 h7 h8
  split at h
  · cases h
  · split_ifs at h

lemma parse_error_code_iff (b : Nat) (r : List Nat) :
    (∃ e, Parse (b :: r) = .error e) ↔
      (0x80 ≤ b ∧ utf8FullRune (b :: r) = false) := by
  constructor
  · rintro ⟨e, he⟩
    by_cases h9 : 0x80 ≤ b ∧ b ≠ 0x1b
    · refine ⟨h9.1, ?_⟩
      by_contra hf
      rw [parse_high_byte h9.1, if_neg hf] at he
      split_ifs at he
    · exact absurd he (parse_ok_of_lowOrEsc h9 e)
  · rintro ⟨hb, hf⟩
    exact ⟨.incompleteUtf8, by rw [parse_high_byte hb, if_pos hf]⟩

lemma parse_error_spec_iff (seq : List Nat) :
    (∃ e, Parse seq = .error e) ↔
      seq = [] ∨ ∃ V t, UnicodeScalarMulti V ∧ t ≠ [] ∧ seq ++ t = encodeUtf8 V := by
  cases seq with
  | nil =>
    constructor
    · intro _; exact Or.inl rfl
    · intro _; exact ⟨.emptySequence, rfl⟩
  | cons b r =>
    rw [parse_error_code_iff]
    constructor
    · rintro ⟨hb, hf⟩
      exact Or.inr (exists_completion hb hf)
    · rintro (h | ⟨V, t, hV, ht, heq⟩)
      · exact absurd h (by simp)
      · have ht' : 0 < t.length := List.length_pos.mpr ht
        have hlen : (b :: r).length < (encodeUtf8 V).length := by
          rw [← heq, List.length_append]
          omega
        have htake : (encodeUtf8 V).take (b :: r).length = b :: r := by
          rw [← heq]
          exact List.take_left (b :: r) t
        have hnf : utf8FullRune (b :: r) = false := by
          have := notFull_of_take hV (i := (b :: r).length) (by simp) hlen
          rwa [htake] at this
        have hb : 0x80 ≤ b := by
          obtain ⟨c0, cr, hshape, hge, _⟩ := encode_head_ge hV
          rw [hshape] at heq
          have hbc : b = c0 := by
            have := congrArg List.head? heq
            simpa using this
          omega
        exact ⟨hb, hnf⟩

end Utf8Lemmas

lemma parse_escape_all :
    ∀ p ∈ escapeSequences, Parse p.1 = .ok ⟨p.2.1, 0, p.2.2, true, false⟩ := by
  decide

lemma escapeSequences_shape :
    ∀ p ∈ escapeSequences, p.1.head? = some 0x1b ∧ p.1.length ≤ 15 := by
  decide

lemma utf8ExtraRead_noneed {p0 : Nat} {p : List Nat} {chunks : List (List Nat)}
    (h : ¬(0x80 ≤ p0 ∧ p0 ≠ 0x1b ∧ utf8FullRune (p0 :: p) = false ∧
      (p0 :: p).length < 4)) :
    utf8ExtraRead (p0 :: p) chunks = (p0 :: p, chunks) := by
  simp only [utf8ExtraRead]
  rw [if_neg h]

lemma utf8ExtraRead_incomplete {p0 : Nat} {p c : List Nat} {rest : List (List Nat)}
    (hb : 0x80 ≤ p0) (hb2 : p0 ≠ 0x1b) (hf : utf8FullRune (p0 :: p) = false)
    (hlen : (p0 :: p).length < 4) (hc : c ≠ []) :
    utf8ExtraRead (p0 :: p) (c :: rest) = (p0 :: p ++ c, rest) := by
  simp only [utf8ExtraRead]
  rw [if_pos ⟨hb, hb2, hf, hlen⟩, if_neg hc]

lemma escapeReads_nil (p : List Nat) : escapeReads p [] = (p, []) := rfl

lemma escapeReads_two {p c : List Nat} (hlen : p.length < 16) (hc : c ≠ []) :
    escapeReads p [c] = (p ++ c, []) := by
  simp only [escapeReads]
  rw [if_neg (by omega : ¬ 16 ≤ p.length), if_neg hc]

lemma encodeUtf8_len_le (V : Nat) : (encodeUtf8 V).length ≤ 4 := by
  unfold encodeUtf8; split_ifs <;> simp

lemma readEvent_esc_eval {q : List Nat} (hlen : q.length ≤ 14) :
    ∃ ev, Parse (0x1b :: q) = .ok ev ∧
      readEvent ⟨[]⟩ [0x1b :: q] = (.ok ev, ⟨[]⟩, []) ∧
      ∀ i, 0 < i → i < q.length + 1 →
        readEvent ⟨[]⟩ [(0x1b :: q).take i, (0x1b :: q).drop i] =
          (.ok ev, ⟨[]⟩, []) := by
  cases hP : Parse (0x1b :: q) with
  | error e => exact absurd hP (parse_ok_of_lowOrEsc (fun h => h.2 rfl) e)
  | ok ev =>
    refine ⟨ev, rfl, ?_, ?_⟩
    · simp only [readEvent, List.nil_append]
      rw [utf8ExtraRead_noneed (fun h => absurd h.1 (by omega))]
      dsimp only
      rw [if_pos (rfl : (0x1b : Nat) = 0x1b)]
      rw [escapeReads_nil]
      try dsimp only
      rw [hP]
      rfl
    · intro i h0 hi
      obtain ⟨j, rfl⟩ : ∃ j, i = j + 1 := ⟨i - 1, by omega⟩
      rw [show (0x1b :: q).take (j + 1) = 0x1b :: q.take j from rfl,
          show (0x1b :: q).drop (j + 1) = q.drop j from rfl]
      simp only [readEvent, List.nil_append]
      rw [utf8ExtraRead_noneed (fun h => absurd h.1 (by omega))]
      dsimp only
      rw [if_pos (rfl : (0x1b : Nat) = 0x1b)]
      have hj : j < q.length := by omega
      rw [escapeReads_two
        (by simp only [List.length_cons, List.length_take]; omega)
        (by
          intro hd
          have hl : (q.drop j).length = q.length - j := List.length_drop _ _
          rw [hd] at hl
          simp only [List.length_nil] at hl
          omega)]
      rw [show (0x1b :: q.take j) ++ q.drop j = 0x1b :: q from by
        rw [List.cons_append, List.take_append_drop]]
      try dsimp only
      rw [hP]
      rfl

lemma readEvent_utf8_eval {V : Nat} (hV : UnicodeScalarMulti V) :
    readEvent ⟨[]⟩ [encodeUtf8 V] =
        (.ok ⟨KeyUnknown, V, ModNone, true, false⟩, ⟨[]⟩, []) ∧
      ∀ i, 0 < i → i < (encodeUtf8 V).length →
        readEvent ⟨[]⟩ [(encodeUtf8 V).take i, (encodeUtf8 V).drop i] =
          (.ok ⟨KeyUnknown, V, ModNone, true, false⟩, ⟨[]⟩, []) := by
  obtain ⟨c0, cr, hshape, hge, hle⟩ := encode_head_ge hV
  have hfull : utf8FullRune (encodeUtf8 V) = true := by
    obtain ⟨hlo, hhi, hsur⟩ := hV
    by_cases h2 : V < 0x800
    · exact utf8FullRune_encode_two hlo h2
    · by_cases h3 : V < 0x10000
      · exact utf8FullRune_encode_three (by omega) h3
      · exact utf8FullRune_encode_four (by omega) hhi
  have hP := parse_encodeUtf8 hV
  have hlen4 := encodeUtf8_len_le V
  rw [hshape] at hfull hP hlen4
  constructor
  · rw [hshape]
    simp only [readEvent, List.nil_append]
    rw [utf8ExtraRead_noneed (fun h => by
      rw [hfull] at h
      exact absurd h.2.2.1 (by simp))]
    dsimp only
    rw [if_neg (by omega : ¬ c0 = 0x1b)]
    try dsimp only
    rw [hP]
    rfl
  · intro i h0 hi
    rw [hshape] at hi ⊢
    obtain ⟨j, rfl⟩ : ∃ j, i = j + 1 := ⟨i - 1, by omega⟩
    have hj : j < cr.length := by
      simp only [List.length_cons] at hi
      omega
    rw [show (c0 :: cr).take (j + 1) = c0 :: cr.take j from rfl,
        show (c0 :: cr).drop (j + 1) = cr.drop j from rfl]
    simp only [readEvent, List.nil_append]
    have hnf : utf8FullRune (c0 :: cr.take j) = false := by
      have hh := notFull_of_take hV (i := j + 1) (by omega)
        (by rw [hshape]; simpa using hi)
      rw [hshape] at hh
      exact hh
    rw [utf8ExtraRead_incomplete (by omega) (by omega) hnf
      (by
        simp only [List.length_cons, List.length_take]
        simp only [List.length_cons] at hlen4
        omega)
      (by
        intro hd
        have hl : (cr.drop j).length = cr.length - j := List.length_drop _ _
        rw [hd] at hl
        simp only [List.length_nil] at hl
        omega)]
    rw [show (c0 :: cr.take j) ++ cr.drop j = c0 :: cr from by
      rw [List.cons_append, List.take_append_drop]]
    dsimp only
    rw [if_neg (by omega : ¬ c0 = 0x1b)]
    try dsimp only
    rw [hP]
    rfl

lemma lookupKey_setKey (ks : List (Key × Bool)) (k : Key) (v : Bool) :
    lookupKey (setKey ks k v) k = v := by
  induction ks with
  | nil => simp [setKey, lookupKey]
  | cons kv rest ih =>
    obtain ⟨k0, w⟩ := kv
    simp only [setKey]
    by_cases h : k0 = k
    · subst h
      rw [if_pos rfl]
      simp [lookupKey]
    · rw [if_neg h]
      simp only [lookupKey]
      rw [if_neg h]
      exact ih

example : Parse [0x03] = .ok ⟨KeyCtrlC, 0, ModCtrl, true, false⟩ := by decide
example : Parse [0x1b, 0x5b, 0x41] = .ok ⟨KeyUp, 0, ModNone, true, false⟩ := by decide
example : Parse [0xe6, 0x97, 0xa5] = .ok ⟨KeyUnknown, 0x65E5, ModNone, true, false⟩ := by decide
example : Parse [0x09] = .ok ⟨KeyUnknown, 0, ModCtrl, true, false⟩ := by decide
example : Parse [0xe6] = .error .incompleteUtf8 := by decide
example : readEvent ⟨[]⟩ [[0xe6], [0x97, 0xa5]] =
    (.ok ⟨KeyUnknown, 0x65E5, ModNone, true, false⟩, ⟨[]⟩, []) := by decide
example : readEvent ⟨[]⟩ [[0xe6]] =
    (.error (.parseErr .incompleteUtf8), ⟨[]⟩, []) := by decide
example : readEvent ⟨[]⟩ [[0x97, 0xa5]] =
    (.ok ⟨KeyUnknown, 0xFFFD, ModNone, true, false⟩, ⟨[]⟩, []) := by decide
example : readEvent ⟨[]⟩ [[0x1b], [0x5b, 0x41]] =
    (.ok ⟨KeyUp, 0, ModNone, true, false⟩, ⟨[]⟩, []) := by decide
example : readEvent ⟨[]⟩ [[0x1b]] =
    (.ok ⟨KeyEscape, 0, ModNone, true, false⟩, ⟨[]⟩, []) := by decide
example : captureRun (List.replicate 10 .err) 0 [] = ([], .exitErrors) := by decide
example : pollSteps (stop (start newImpl).1) = [(zeroEvent, false, stop (start newImpl).1), (zeroEvent, false, stop (start newImpl).1)] := by decide

/-! Claim theorems. -/

/-- C1: the spec's single-byte dispatch table says 0x09 parses to Tab,
0x0D to Enter and 0x08 to Backspace, but in `Parse` the control-character
branch (0x01-0x1A) runs first, so 0x09 and 0x0D reach `ctrlCharToKey`
(whose comments say they are handled separately) and come back as
KeyUnknown with ModCtrl, and 0x08 parses as KeyCtrlH; the Tab, Enter and
Backspace-for-0x08 branches of Parse are dead code. -/
theorem C1_single_byte_dispatch_code_bug :
    Parse [0x09] = .ok ⟨KeyUnknown, 0, ModCtrl, true, false⟩ ∧
    Parse [0x0d] = .ok ⟨KeyUnknown, 0, ModCtrl, true, false⟩ ∧
    Parse [0x08] = .ok ⟨KeyCtrlH, 0, ModCtrl, true, false⟩ ∧
    KeyUnknown ≠ KeyTab ∧ KeyUnknown ≠ KeyEnter ∧ KeyCtrlH ≠ KeyBackspace :=
  ⟨by decide, by decide, by decide, by decide, by decide, by decide⟩

/-- C2: every escape sequence inserted into the trie by buildTrie parses to
an Event carrying exactly the bound key and modifier, with no error. -/
theorem C2_trie_sequences_parse (s : List Nat) (k : Key) (m : Modifier)
    (h : (s, k, m) ∈ escapeSequences) :
    Parse s = .ok ⟨k, 0, m, true, false⟩ :=
  parse_escape_all (s, k, m) h

/-- Witness for C2 at ESC [ A, the Up-arrow sequence. -/
theorem C2_trie_sequences_parse_witness :
    ([0x1b, 0x5b, 0x41], KeyUp, ModNone) ∈ escapeSequences ∧
    Parse [0x1b, 0x5b, 0x41] = .ok ⟨KeyUp, 0, ModNone, true, false⟩ :=
  ⟨by decide, C2_trie_sequences_parse _ _ _ (by decide)⟩

/-- C3: for every Unicode scalar value V with a 2-, 3- or 4-byte UTF-8
encoding, Parse of exactly those bytes returns an Event with Rune = V and
Key = KeyUnknown, with no error. -/
theorem C3_utf8_parse (V : Nat) (h1 : 0x80 ≤ V) (h2 : V ≤ 0x10FFFF)
    (h3 : ¬(0xD800 ≤ V ∧ V ≤ 0xDFFF)) :
    Parse (encodeUtf8 V) = .ok ⟨KeyUnknown, V, ModNone, true, false⟩ :=
  parse_encodeUtf8 ⟨h1, h2, h3⟩

/-- Witness for C3 at U+65E5, whose encoding is E6 97 A5. -/
theorem C3_utf8_parse_witness :
    encodeUtf8 0x65E5 = [0xE6, 0x97, 0xA5] ∧
    (0x80 ≤ 0x65E5 ∧ 0x65E5 ≤ 0x10FFFF ∧ ¬(0xD800 ≤ 0x65E5 ∧ 0x65E5 ≤ 0xDFFF)) ∧
    Parse [0xE6, 0x97, 0xA5] = .ok ⟨KeyUnknown, 0x65E5, ModNone, true, false⟩ :=
  ⟨by decide, ⟨by decide, by decide, by decide⟩, by
    rw [show ([0xE6, 0x97, 0xA5] : List Nat) = encodeUtf8 0x65E5 from by decide]
    exact C3_utf8_parse 0x65E5 (by decide) (by decide) (by decide)⟩

/-- C4: Parse returns an error exactly for the empty sequence or for a
proper nonempty prefix of the UTF-8 encoding of some multi-byte Unicode
scalar value (the need-more-bytes signal); every other input parses to an
Event with a nil error. -/
theorem C4_parse_error_only_incomplete (seq : List Nat) :
    (∃ e, Parse seq = .error e) ↔
      seq = [] ∨ ∃ V t, UnicodeScalarMulti V ∧ t ≠ [] ∧ seq ++ t = encodeUtf8 V :=
  parse_error_spec_iff seq

/-- C5 counterexample: the pending-bytes accumulator is cleared at the end
of every ReadEvent call, so delivering the halves of the valid UTF-8
sequence E6 97 A5 across two successive ReadEvent calls does not
reproduce the single-call Event: call one errors (and leaves an empty
accumulator), call two decodes the orphan continuation bytes to
RuneError, while a single call yields Rune U+65E5. -/
theorem C5_split_across_calls_counterexample :
    readEvent ⟨[]⟩ [[0xE6, 0x97, 0xA5]] =
      (.ok ⟨KeyUnknown, 0x65E5, ModNone, true, false⟩, ⟨[]⟩, []) ∧
    readEvent ⟨[]⟩ [[0xE6]] = (.error (.parseErr .incompleteUtf8), ⟨[]⟩, []) ∧
    readEvent (readEvent ⟨[]⟩ [[0xE6]]).2.1 [[0x97, 0xA5]] =
      (.ok ⟨KeyUnknown, 0xFFFD, ModNone, true, false⟩, ⟨[]⟩, []) ∧
    (⟨KeyUnknown, 0xFFFD, ModNone, true, false⟩ : Event) ≠
      ⟨KeyUnknown, 0x65E5, ModNone, true, false⟩ :=
  ⟨by decide, by decide, by decide, by decide⟩

/-- C5 amended: a split is healed only inside one ReadEvent call, by its
timeout-bounded extra device reads: for every supported escape sequence
and every valid multi-byte UTF-8 encoding, delivering the two halves as
two successive device reads within a single ReadEvent call yields the
same result as delivering the whole sequence in one read. -/
theorem C5_split_within_call (i : Nat) (h0 : 0 < i) :
    (∀ p ∈ escapeSequences, i < p.1.length →
      readEvent ⟨[]⟩ [p.1.take i, p.1.drop i] = readEvent ⟨[]⟩ [p.1]) ∧
    (∀ V, UnicodeScalarMulti V → i < (encodeUtf8 V).length →
      readEvent ⟨[]⟩ [(encodeUtf8 V).take i, (encodeUtf8 V).drop i] =
        readEvent ⟨[]⟩ [encodeUtf8 V]) := by
  constructor
  · intro p hp hi
    obtain ⟨hhead, hlen⟩ := escapeSequences_shape p hp
    obtain ⟨b0, tail, hsh⟩ : ∃ b0 t, p.1 = b0 :: t := by
      cases hq : p.1 with
      | nil => rw [hq] at hhead; simp at hhead
      | cons a t => exact ⟨a, t, rfl⟩
    have hb0 : b0 = 0x1b := by
      rw [hsh] at hhead
      simpa using hhead
    subst hb0
    rw [hsh] at hi ⊢
    obtain ⟨ev, hPev, hwhole, hsplit⟩ := readEvent_esc_eval (q := tail)
      (by rw [hsh] at hlen; simpa using hlen)
    rw [hwhole, hsplit i h0 (by simpa using hi)]
  · intro V hV hi
    obtain ⟨hwhole, hsplit⟩ := readEvent_utf8_eval hV
    rw [hwhole, hsplit i h0 hi]

/-- Witness for the amended C5 at ESC [ A split after its first byte. -/
theorem C5_split_within_call_witness :
    (0 : Nat) < 1 ∧ ([0x1b, 0x5b, 0x41], KeyUp, ModNone) ∈ escapeSequences ∧
    1 < ([0x1b, 0x5b, 0x41] : List Nat).length ∧
    readEvent ⟨[]⟩ [[0x1b], [0x5b, 0x41]] = readEvent ⟨[]⟩ [[0x1b, 0x5b, 0x41]] := by
  refine ⟨by decide, by decide, by decide, ?_⟩
  exact (C5_split_within_call 1 (by decide)).1
    ([0x1b, 0x5b, 0x41], KeyUp, ModNone) (by decide) (by decide)

/-- C6 counterexample: ten consecutive read errors do make the capture
loop exit, but the loop closes neither the done channel nor the events
channel, so in the running-and-never-stopped facade state a Poll call has
no select arm that can fire: it hangs instead of returning the zero Event
and false. -/
theorem C6_poll_after_error_exit_counterexample :
    captureRun (List.replicate 10 .err) 0 [] = ([], .exitErrors) ∧
    pollSteps (start newImpl).1 = [] :=
  ⟨by decide, by decide⟩

/-- C6 amended: the loop terminates after ten consecutive non-EOF read
errors and one success resets the counter, but a blocked or subsequent
Poll returns the zero Event and false only once Stop has run and closed
the done and events channels. -/
theorem C6_error_exit_amended (rest : List ReadOutcome) (q : List Event)
    (e : Event) (c : Nat) (s : ImplState) (hs : s.started = true)
    (ho : s.stopOnceUsed = false) :
    captureRun (List.replicate 10 .err ++ rest) 0 q = (q, .exitErrors) ∧
    captureRun (.ok e :: rest) c q = captureRun rest 0 (q ++ [e]) ∧
    pollSteps (stop s) ≠ [] ∧
    (∀ out ∈ pollSteps (stop s), out.1 = zeroEvent ∧ out.2.1 = false) := by
  refine ⟨rfl, rfl, ?_, ?_⟩
  · simp [stop, pollSteps, hs, ho]
  · intro out hout
    simp [stop, pollSteps, hs, ho] at hout
    rcases hout with rfl | rfl
    all_goals exact ⟨rfl, rfl⟩

/-- Witness for the amended C6 on a freshly started instance. -/
theorem C6_error_exit_amended_witness :
    ((start newImpl).1.started = true ∧ (start newImpl).1.stopOnceUsed = false) ∧
    captureRun (List.replicate 10 .err) 0 [] = ([], .exitErrors) ∧
    pollSteps (stop (start newImpl).1) ≠ [] := by
  refine ⟨⟨by decide, by decide⟩, ?_, ?_⟩
  · have h := C6_error_exit_amended [] [] zeroEvent 0 (start newImpl).1
      (by decide) (by decide)
    simpa using h.1
  · exact (C6_error_exit_amended [] [] zeroEvent 0 (start newImpl).1
      (by decide) (by decide)).2.2.1

/-- C7 counterexample: the capture loop's success path only sends the
Event to the queue; the key-state map is not updated there, so the Event
is visible in the queue while IsPressed for its key still reads false. -/
theorem C7_update_before_push_counterexample :
    (captureSuccessStep (start newImpl).1 ⟨KeyA, 0x61, ModNone, true, false⟩).queue =
      [⟨KeyA, 0x61, ModNone, true, false⟩] ∧
    isPressed (captureSuccessStep (start newImpl).1
      ⟨KeyA, 0x61, ModNone, true, false⟩) KeyA = false :=
  ⟨by decide, by decide⟩

/-- C7 amended: the key-state tracker is updated on the consumer side, not
by the capture loop: the push leaves keyState unchanged, and a Poll that
receives an Event updates keyState with it before returning, so the state
a consumer observes after receiving the Event for key K is consistent. -/
theorem C7_update_on_pop (s : ImplState) (e : Event) (rest : List Event)
    (hq : s.queue = e :: rest) (hd : s.doneClosed = false) :
    (captureSuccessStep s e).keyState = s.keyState ∧
    pollSteps s =
      [(e, true, { s with queue := rest, keyState := updateKeyState s.keyState e })] ∧
    (∀ out ∈ pollSteps s, isPressed out.2.2 e.Key = e.Pressed) := by
  refine ⟨rfl, by simp [pollSteps, hq, hd], ?_⟩
  intro out hout
  simp [pollSteps, hq, hd] at hout
  rw [hout]
  exact lookupKey_setKey s.keyState e.Key e.Pressed

/-- Witness for the amended C7 on a queue holding one KeyA press. -/
theorem C7_update_on_pop_witness :
    ((captureSuccessStep (start newImpl).1 ⟨KeyA, 0x61, ModNone, true, false⟩).queue =
      ⟨KeyA, 0x61, ModNone, true, false⟩ :: [] ∧
     (captureSuccessStep (start newImpl).1
       ⟨KeyA, 0x61, ModNone, true, false⟩).doneClosed = false) ∧
    (∀ out ∈ pollSteps (captureSuccessStep (start newImpl).1
        ⟨KeyA, 0x61, ModNone, true, false⟩),
      isPressed out.2.2 KeyA = true) := by
  refine ⟨⟨by decide, by decide⟩, ?_⟩
  exact (C7_update_on_pop _ ⟨KeyA, 0x61, ModNone, true, false⟩ []
    (by decide) (by decide)).2.2

/-- C8 counterexample: Start never resets the key-state map, so after a
press of A is consumed, a Stop and a second successful Start, IsPressed A
still reads true, violating the claimed empty key-state after every
successful Start. -/
theorem C8_restart_keystate_counterexample :
    (start (stop (next (captureSuccessStep (start newImpl).1
      ⟨KeyA, 0x61, ModNone, true, false⟩)).2)).2 = .ok () ∧
    isPressed (start (stop (next (captureSuccessStep (start newImpl).1
      ⟨KeyA, 0x61, ModNone, true, false⟩)).2)).1 KeyA = true :=
  ⟨by decide, by decide⟩

/-- C8 amended: on a fresh instance the key-state map starts empty, so
after the first Start every key reads unpressed; but Start itself leaves
the key-state map untouched, so state persists across a Stop and Start
cycle on the same instance. -/
theorem C8_start_keystate (k : Key) (s : ImplState) :
    isPressed (start newImpl).1 k = false ∧ ((start s).1).keyState = s.keyState := by
  constructor
  · simp [start, newImpl, isPressed, lookupKey]
  · unfold start
    split_ifs <;> rfl

/-- C9 counterexample: a Stop call before any Start consumes the one-shot
sync.Once guard, so after the sequence Stop, Start, Stop the instance is
still started and Restore has never run. -/
theorem C9_stop_once_counterexample :
    (start (stop newImpl)).2 = .ok () ∧
    (stop ((start (stop newImpl)).1)).started = true ∧
    (stop ((start (stop newImpl)).1)).restoreCount = 0 :=
  ⟨by decide, by decide, by decide⟩

/-- C9 amended: provided no Stop preceded the successful Start, the first
Stop performs the full shutdown - marks the instance stopped, invokes
Restore exactly once, closes the done and events channels - further Stop
calls change nothing, and every Poll outcome in the stopped state is the
zero Event with false rather than a hang or panic. -/
theorem C9_stop_effective (s : ImplState) (hs : s.started = true)
    (ho : s.stopOnceUsed = false) (hb : s.backendInited = true) :
    (stop s).started = false ∧
    (stop s).restoreCount = s.restoreCount + 1 ∧
    (stop s).doneClosed = true ∧
    (stop s).eventsClosed = true ∧
    stop (stop s) = stop s ∧
    pollSteps (stop s) ≠ [] ∧
    (∀ out ∈ pollSteps (stop s), out.1 = zeroEvent ∧ out.2.1 = false) := by
  refine ⟨by simp [stop, hs, ho], by simp [stop, hs, ho, hb],
    by simp [stop, hs, ho], by simp [stop, hs, ho], ?_, by simp [stop, pollSteps, hs, ho], ?_⟩
  · simp [stop, hs, ho]
  · intro out hout
    simp [stop, pollSteps, hs, ho] at hout
    rcases hout with rfl | rfl
    all_goals exact ⟨rfl, rfl⟩

/-- Witness for the amended C9 on a freshly started instance. -/
theorem C9_stop_effective_witness :
    ((start newImpl).1.started = true ∧ (start newImpl).1.stopOnceUsed = false ∧
     (start newImpl).1.backendInited = true) ∧
    (stop (start newImpl).1).started = false ∧
    (stop (start newImpl).1).restoreCount = 1 ∧
    stop (stop (start newImpl).1) = stop (start newImpl).1 := by
  refine ⟨⟨by decide, by decide, by decide⟩, ?_, ?_, ?_⟩
  · exact (C9_stop_effective (start newImpl).1 (by decide) (by decide) (by decide)).1
  · exact (C9_stop_effective (start newImpl).1 (by decide) (by decide) (by decide)).2.1
  · exact (C9_stop_effective (start newImpl).1 (by decide) (by decide) (by decide)).2.2.2.2.1

/-- C10: after Stop completes on a started instance the events channel is
closed and drained, so every subsequent Next returns a non-nil pointer to
the zero Event and records keyState KeyUnknown = false; and Next returns
nil exactly when the events channel is still open and momentarily empty. -/
theorem C10_next_after_stop (s : ImplState) (hs : s.started = true)
    (ho : s.stopOnceUsed = false) :
    (next (stop s)).1 = some zeroEvent ∧
    isPressed (next (stop s)).2 KeyUnknown = false ∧
    (∀ u : ImplState, (next u).1 = none ↔ (u.queue = [] ∧ u.eventsClosed = false)) := by
  refine ⟨by simp [stop, next, hs, ho], ?_, ?_⟩
  · have hq : (stop s).queue = [] := by simp [stop, hs, ho]
    have hc : (stop s).eventsClosed = true := by simp [stop, hs, ho]
    simp only [next, hq, hc, if_pos]
    exact lookupKey_setKey _ KeyUnknown false
  · intro u
    cases hq : u.queue with
    | cons e rest => simp [next, hq]
    | nil =>
      by_cases hc : u.eventsClosed
      · simp [next, hq, hc]
      · simp [next, hq, hc]

/-- Witness for C10 on a freshly started then stopped instance. -/
theorem C10_next_after_stop_witness :
    ((start newImpl).1.started = true ∧ (start newImpl).1.stopOnceUsed = false) ∧
    (next (stop (start newImpl).1)).1 = some zeroEvent ∧
    isPressed (next (stop (start newImpl).1)).2 KeyUnknown = false := by
  refine ⟨⟨by decide, by decide⟩, ?_, ?_⟩
  · exact (C10_next_after_stop (start newImpl).1 (by decide) (by decide)).1
  · exact (C10_next_after_stop (start newImpl).1 (by decide) (by decide)).2.1

end Gokeys
